import Mathlib

/-!
Shallow embedding of `src/zone/expedition_database.cpp` (EQEmulator expedition
persistence layer).  Each SQL table is modelled as a list of row structures and
each `ExpeditionDatabase` operation as a Lean function translated from the SQL
statement it issues.  `UNIX_TIMESTAMP(NOW())` is modelled by an explicit `now`
parameter; `expire_time` values are unix timestamps (`Nat`).

The table schemas themselves (`expedition_character_lockouts`,
`expedition_members`, ...) are not part of the repository slice, so their
unique keys are modelled from the spec: the per-character lockout table is
unique on (character id, expedition name, event name) and the members table is
unique on character id.
-/

namespace ExpeditionDatabase

/-- One row of the `expedition_character_lockouts` table.
Columns as used by the queries in the source: character_id, expire_time,
duration, from_expedition_uuid, expedition_name, event_name, is_pending. -/
structure CharLockoutRow where
  character_id : Nat
  expire_time : Nat
  duration : Nat
  from_expedition_uuid : String
  expedition_name : String
  event_name : String
  is_pending : Bool
deriving DecidableEq, Repr

/-- The `ExpeditionLockoutTimer` value object handed to / returned by the
store (uuid, expedition name, event name, expire time, duration). -/
structure ExpeditionLockoutTimer where
  expedition_uuid : String
  expedition_name : String
  event_name : String
  expire_time : Nat
  duration : Nat
deriving DecidableEq, Repr

/-- Modelled from the spec: `ExpeditionMember` (declared in a header outside
the slice) is a (character id, character name) pair; the empty/absent result
is a member with id 0 and empty name. -/
structure ExpeditionMember where
  char_id : Nat
  name : String
deriving DecidableEq, Repr

/-- One row of the `expedition_members` table. -/
structure MemberRow where
  expedition_id : Nat
  character_id : Nat
deriving DecidableEq, Repr

/-- One row of the `expedition_details` table (columns the modelled queries
touch). -/
structure DetailsRow where
  id : Nat
  uuid : String
  instance_id : Nat
  expedition_name : String
  leader_id : Nat
  min_players : Nat
  max_players : Nat
deriving DecidableEq, Repr

/-- One row of the `expedition_lockouts` (per-expedition) table. -/
structure ExpLockoutRow where
  expedition_id : Nat
  from_expedition_uuid : String
  event_name : String
  expire_time : Nat
  duration : Nat
deriving DecidableEq, Repr

/-- One row of the `character_data` directory (columns used here). -/
structure CharacterDataRow where
  id : Nat
  name : String
deriving DecidableEq, Repr

/-- The logical key of a per-character lockout row.  Modelled from the spec:
the table is "unique on character+name+event". -/
def lockoutKey (r : CharLockoutRow) : Nat × String × String :=
  (r.character_id, r.expedition_name, r.event_name)

/-- Schema uniqueness constraint of `expedition_character_lockouts`:
no two rows share a (character id, expedition name, event name) key. -/
def uniqueLockoutKeys : List CharLockoutRow → Bool
  | [] => true
  | r :: rest => !(rest.any fun s => decide (lockoutKey s = lockoutKey r)) && uniqueLockoutKeys rest

/-- Row filter of `LoadCharacterLockouts(character_id)`:
`WHERE character_id = {} AND is_pending = FALSE AND expire_time > NOW()`. -/
def activeCharLockoutRows (tbl : List CharLockoutRow) (now character_id : Nat) :
    List CharLockoutRow :=
  tbl.filter fun r =>
    r.character_id == character_id && r.is_pending == false && decide (now < r.expire_time)

/-- Embedding of `ExpeditionDatabase::LoadCharacterLockouts(character_id)` (lines 99-132):
selects the active rows and builds `ExpeditionLockoutTimer`s from them. -/
def LoadCharacterLockouts (tbl : List CharLockoutRow) (now character_id : Nat) :
    List ExpeditionLockoutTimer :=
  (activeCharLockoutRows tbl now character_id).map fun r =>
    ⟨r.from_expedition_uuid, r.expedition_name, r.event_name, r.expire_time, r.duration⟩

/-- Row filter of `LoadCharacterLockouts(character_id, expedition_name)`:
`WHERE character_id = {} AND is_pending = FALSE AND expire_time > NOW()
AND expedition_name = '{}'`. -/
def activeCharLockoutRowsByName (tbl : List CharLockoutRow) (now character_id : Nat)
    (expedition_name : String) : List CharLockoutRow :=
  tbl.filter fun r =>
    r.character_id == character_id && r.is_pending == false &&
      decide (now < r.expire_time) && r.expedition_name == expedition_name

/-- Embedding of `ExpeditionDatabase::LoadCharacterLockouts(character_id, expedition_name)`
(lines 134-171). -/
def LoadCharacterLockoutsByName (tbl : List CharLockoutRow) (now character_id : Nat)
    (expedition_name : String) : List ExpeditionLockoutTimer :=
  (activeCharLockoutRowsByName tbl now character_id expedition_name).map fun r =>
    ⟨r.from_expedition_uuid, expedition_name, r.event_name, r.expire_time, r.duration⟩

/-- True when `tbl` already holds a row with the key
(character_id, lk.expedition_name, lk.event_name): the `ON DUPLICATE KEY`
branch of the character-lockout insert fires for `lk`. -/
def charLockoutConflict (tbl : List CharLockoutRow) (character_id : Nat)
    (lk : ExpeditionLockoutTimer) : Bool :=
  tbl.any fun r =>
    decide (lockoutKey r = (character_id, lk.expedition_name, lk.event_name))

/-- The `ON DUPLICATE KEY UPDATE` action of `InsertCharacterLockouts` with
`replace_timer = true`: overwrite `from_expedition_uuid`, `expire_time` and
`duration` with the inserted values; all other columns (including
`is_pending`) keep the existing row's values. -/
def replaceLockoutValues (lk : ExpeditionLockoutTimer) (r : CharLockoutRow) :
    CharLockoutRow :=
  { r with
    from_expedition_uuid := lk.expedition_uuid
    expire_time := lk.expire_time
    duration := lk.duration }

/-- Insert-or-update of a single VALUES tuple of `InsertCharacterLockouts`
(lines 455-511): on key conflict, `replace_timer = true` rewrites
uuid/expire/duration and `replace_timer = false` performs the self-assignment
`character_id = VALUES(character_id)` (row unchanged); without conflict a new
row is appended carrying the statement's `is_pending` value. -/
def upsertCharLockout (character_id : Nat) (replace_timer is_pending : Bool)
    (tbl : List CharLockoutRow) (lk : ExpeditionLockoutTimer) : List CharLockoutRow :=
  if charLockoutConflict tbl character_id lk then
    if replace_timer then
      tbl.map fun r =>
        if lockoutKey r = (character_id, lk.expedition_name, lk.event_name) then
          replaceLockoutValues lk r
        else r
    else
      tbl
  else
    tbl ++ [⟨character_id, lk.expire_time, lk.duration, lk.expedition_uuid,
            lk.expedition_name, lk.event_name, is_pending⟩]

/-- Embedding of `ExpeditionDatabase::InsertCharacterLockouts` (lines 455-511): one
multi-row `INSERT ... ON DUPLICATE KEY UPDATE`, VALUES tuples processed in
order; with an empty lockout list `insert_values` stays empty and no query is
issued. -/
def InsertCharacterLockouts (tbl : List CharLockoutRow) (character_id : Nat)
    (lockouts : List ExpeditionLockoutTimer) (replace_timer is_pending : Bool) :
    List CharLockoutRow :=
  if lockouts.isEmpty then tbl
  else lockouts.foldl (upsertCharLockout character_id replace_timer is_pending) tbl

/-- Number of queries `InsertCharacterLockouts` issues: the statement is only
sent when `insert_values` is non-empty, i.e. when the lockout list is. -/
def InsertCharacterLockouts_queryCount (lockouts : List ExpeditionLockoutTimer) : Nat :=
  if lockouts.isEmpty then 0 else 1

/-- The last VALUES tuple of a character-lockout batch whose insert key
(character_id, expedition name, event name) equals `k`, if any: since the
tuples of one statement are processed in order, this is the tuple whose
values a conflicting row ends up with. -/
def lastBatchMatch (character_id : Nat) (lockouts : List ExpeditionLockoutTimer)
    (k : Nat × String × String) : Option ExpeditionLockoutTimer :=
  lockouts.foldl
    (fun acc lk =>
      if (character_id, lk.expedition_name, lk.event_name) = k then some lk else acc)
    none

/-- Net effect of a whole replace-mode batch on one pre-existing row: the row
keeps all its columns except that uuid/expire/duration are overwritten by the
last batch tuple sharing its key; a row no batch tuple conflicts with is
untouched. -/
def replaceRowByBatch (character_id : Nat) (lockouts : List ExpeditionLockoutTimer)
    (r : CharLockoutRow) : CharLockoutRow :=
  match lastBatchMatch character_id lockouts (lockoutKey r) with
  | none => r
  | some lk => replaceLockoutValues lk r

/-- Embedding of `ExpeditionDatabase::DeleteAllCharacterLockouts(character_id)` (lines
273-286): guarded by `character_id != 0`; deletes every lockout row of the
character. -/
def DeleteAllCharacterLockouts (tbl : List CharLockoutRow) (character_id : Nat) :
    List CharLockoutRow :=
  if character_id != 0 then
    tbl.filter fun r => !(r.character_id == character_id)
  else
    tbl

/-- Embedding of `ExpeditionDatabase::DeleteAllCharacterLockouts(character_id,
expedition_name)` (lines 288-302): guarded by `character_id != 0` and a
non-empty name; deletes the character's rows for that expedition name
(pending rows included: no `is_pending` filter). -/
def DeleteAllCharacterLockoutsByName (tbl : List CharLockoutRow) (character_id : Nat)
    (expedition_name : String) : List CharLockoutRow :=
  if character_id != 0 && !(expedition_name == "") then
    tbl.filter fun r =>
      !(r.character_id == character_id && r.expedition_name == expedition_name)
  else
    tbl

/-- Embedding of `ExpeditionDatabase::DeleteCharacterLockout` (lines 304-321): unguarded
`DELETE ... WHERE character_id = {} AND is_pending = FALSE AND
expedition_name = '{}' AND event_name = '{}'`. -/
def DeleteCharacterLockout (tbl : List CharLockoutRow) (character_id : Nat)
    (expedition_name event_name : String) : List CharLockoutRow :=
  tbl.filter fun r =>
    !(r.character_id == character_id && r.is_pending == false &&
      r.expedition_name == expedition_name && r.event_name == event_name)

/-- Embedding of `ExpeditionDatabase::DeleteMembersLockout` (lines 323-350): with a
non-empty member list, deletes non-pending rows of those characters for the
(expedition name, event name) pair; an empty list issues no query. -/
def DeleteMembersLockout (tbl : List CharLockoutRow) (members : List ExpeditionMember)
    (expedition_name event_name : String) : List CharLockoutRow :=
  if members.isEmpty then tbl
  else
    tbl.filter fun r =>
      !((members.any fun m => m.char_id == r.character_id) && r.is_pending == false &&
        r.expedition_name == expedition_name && r.event_name == event_name)

/-- Embedding of `ExpeditionDatabase::AssignPendingLockouts` (lines 352-366):
`UPDATE ... SET is_pending = FALSE WHERE character_id = {} AND is_pending =
TRUE AND expedition_name = '{}'`. -/
def AssignPendingLockouts (tbl : List CharLockoutRow) (character_id : Nat)
    (expedition_name : String) : List CharLockoutRow :=
  tbl.map fun r =>
    if r.character_id == character_id && r.is_pending == true &&
        r.expedition_name == expedition_name then
      { r with is_pending := false }
    else r

/-- Embedding of `ExpeditionDatabase::DeletePendingLockouts` (lines 368-378):
`DELETE ... WHERE character_id = {} AND is_pending = TRUE`. -/
def DeletePendingLockouts (tbl : List CharLockoutRow) (character_id : Nat) :
    List CharLockoutRow :=
  tbl.filter fun r => !(r.character_id == character_id && r.is_pending == true)

/-- Modelled from the spec: the `expedition_members` table enforces "one
active expedition per character ... by a uniqueness constraint on character
identity", so the duplicate-key condition for a member insert is an existing
row with the same character id. -/
def memberConflict (tbl : List MemberRow) (character_id : Nat) : Bool :=
  tbl.any fun r => r.character_id == character_id

/-- Embedding of `ExpeditionDatabase::InsertMember` (lines 617-630): single-row
`INSERT ... ON DUPLICATE KEY UPDATE character_id = VALUES(character_id)`; on
conflict the existing row only has `character_id` reassigned to the inserted
value. -/
def InsertMember (tbl : List MemberRow) (expedition_id character_id : Nat) :
    List MemberRow :=
  if memberConflict tbl character_id then
    tbl.map fun r =>
      if r.character_id == character_id then { r with character_id := character_id }
      else r
  else
    tbl ++ [⟨expedition_id, character_id⟩]

/-- True when the character id appears twice among the VALUES tuples of a
bulk member insert (an internal duplicate-key collision). -/
def membersBatchDup : List ExpeditionMember → Bool
  | [] => false
  | m :: rest => (rest.any fun n => n.char_id == m.char_id) || membersBatchDup rest

/-- Duplicate-key condition for the bulk member insert: some batch entry
collides with an existing row, or two batch entries collide with each
other. -/
def insertMembersConflict (tbl : List MemberRow) (members : List ExpeditionMember) :
    Bool :=
  (members.any fun m => memberConflict tbl m.char_id) || membersBatchDup members

/-- Whether the statement issued by `InsertMembers` succeeds: it is a plain
multi-row `INSERT` with no `ON DUPLICATE KEY UPDATE` clause, so any key
collision makes the whole statement fail. -/
def InsertMembers_ok (tbl : List MemberRow) (members : List ExpeditionMember) : Bool :=
  !(insertMembersConflict tbl members)

/-- Embedding of `ExpeditionDatabase::InsertMembers` (lines 632-658): bulk
`INSERT INTO expedition_members (expedition_id, character_id) VALUES {};`
(no conflict clause).  An empty list issues no query; a duplicate-key error
fails the whole statement, which rolls back (write failures are silent
no-ops). -/
def InsertMembers (tbl : List MemberRow) (expedition_id : Nat)
    (members : List ExpeditionMember) : List MemberRow :=
  if members.isEmpty then tbl
  else if insertMembersConflict tbl members then tbl
  else tbl ++ members.map fun m => ⟨expedition_id, m.char_id⟩

/-- A database snapshot for the operations that touch several tables. -/
structure ExpDB where
  expedition_details : List DetailsRow
  expedition_members : List MemberRow
  expedition_character_lockouts : List CharLockoutRow
  expedition_lockouts : List ExpLockoutRow
  character_data : List CharacterDataRow
  next_insert_id : Nat
deriving DecidableEq, Repr

/-- Embedding of `ExpeditionDatabase::InsertExpedition` (lines 29-52): one `INSERT INTO
expedition_details ...`.  `ok` is the query-execution outcome reported by the
storage service: on failure the function returns the sentinel id 0 and the
database is untouched; on success it returns `LastInsertedID()`, modelled as
`next_insert_id`.  No other table is written in either case. -/
def InsertExpedition (db : ExpDB) (ok : Bool) (uuid : String) (instance_id : Nat)
    (expedition_name : String) (leader_id min_players max_players : Nat) :
    Nat × ExpDB :=
  if ok then
    (db.next_insert_id,
      { db with
        expedition_details := db.expedition_details ++
          [⟨db.next_insert_id, uuid, instance_id, expedition_name, leader_id,
            min_players, max_players⟩]
        next_insert_id := db.next_insert_id + 1 })
  else
    (0, db)

/-- Columns in scope for the `GetExpeditionLeader` query (lines 433-453): the
statement selects from `expedition_details` joined with `character_data`
only. -/
def expeditionLeaderQueryColumns : List String :=
  ["id", "uuid", "instance_id", "expedition_name", "leader_id", "min_players",
   "max_players", "add_replay_on_join", "is_locked", "name"]

/-- The unqualified column referenced by the query's WHERE clause:
`WHERE expedition_id = {}`. -/
def getExpeditionLeaderWhereColumn : String := "expedition_id"

/-- Whether the `GetExpeditionLeader` statement is well-formed: its WHERE
column must exist in the joined tables, otherwise the storage engine rejects
the statement (unknown column) and `results.Success()` is false. -/
def getExpeditionLeaderQueryOk : Bool :=
  expeditionLeaderQueryColumns.contains getExpeditionLeaderWhereColumn

/-- The row set `SELECT expedition_details.leader_id, character_data.name
FROM expedition_details INNER JOIN character_data ON
expedition_details.leader_id = character_data.id` restricted to the
expedition, as the WHERE clause intends. -/
def leaderJoinRows (details : List DetailsRow) (chars : List CharacterDataRow)
    (expedition_id : Nat) : List ExpeditionMember :=
  (details.filter fun d => d.id == expedition_id).flatMap fun d =>
    (chars.filter fun c => c.id == d.leader_id).map fun c => ⟨d.leader_id, c.name⟩

/-- Embedding of `ExpeditionDatabase::GetExpeditionLeader` (lines 433-453): builds a query
whose WHERE clause names `expedition_id`, a column of neither joined table,
so the statement always fails and the default-constructed member (id 0,
empty name) is returned. -/
def GetExpeditionLeader (details : List DetailsRow) (chars : List CharacterDataRow)
    (expedition_id : Nat) : ExpeditionMember :=
  if getExpeditionLeaderQueryOk then
    match leaderJoinRows details chars expedition_id with
    | [] => ⟨0, ""⟩
    | leader :: _ => leader
  else
    ⟨0, ""⟩

/-- Modelled from the spec: `GetLeader(expedition_id)` "resolves leader id to
a (id, name) pair by joining against the character directory; empty when the
expedition has no resolvable leader". -/
def GetExpeditionLeader_spec (details : List DetailsRow) (chars : List CharacterDataRow)
    (expedition_id : Nat) : ExpeditionMember :=
  match leaderJoinRows details chars expedition_id with
  | [] => ⟨0, ""⟩
  | leader :: _ => leader

/-- Embedding of `ExpeditionDatabase::LoadMultipleExpeditionLockouts` (lines 173-225):
with a non-empty id list, joins `expedition_lockouts` with
`expedition_details` and keeps rows whose `expedition_id` is in the list; the
result is the nested (expedition id -> event name -> timer) container,
flattened here to (expedition id, event name, timer) entries.  An empty id
list leaves `in_expedition_ids_query` empty: no query is issued and the empty
container is returned. -/
def LoadMultipleExpeditionLockouts (tbl : List ExpLockoutRow)
    (details : List DetailsRow) (expedition_ids : List Nat) :
    List (Nat × String × ExpeditionLockoutTimer) :=
  if expedition_ids.isEmpty then []
  else
    (tbl.filter fun r => expedition_ids.contains r.expedition_id).flatMap fun r =>
      (details.filter fun d => d.id == r.expedition_id).map fun d =>
        (r.expedition_id, r.event_name,
          ⟨r.from_expedition_uuid, d.expedition_name, r.event_name,
           r.expire_time, r.duration⟩)

/-- Number of queries `LoadMultipleExpeditionLockouts` issues: the statement
is only sent when the id list is non-empty. -/
def LoadMultipleExpeditionLockouts_queryCount (expedition_ids : List Nat) : Nat :=
  if expedition_ids.isEmpty then 0 else 1

/-- One result row of `LoadMembersForCreateRequest`: character identity, the
character's current expedition membership (if any) and its matching active
non-pending lockout row (if any), both via LEFT JOIN. -/
structure CreateRequestRow where
  character_id : Nat
  character_name : String
  member_expedition_id : Option Nat
  lockout : Option CharLockoutRow
deriving DecidableEq, Repr

/-- Embedding of `ExpeditionDatabase::LoadMembersForCreateRequest` (lines 227-271): for a
non-empty name list, selects the named characters and LEFT JOINs each against
its non-pending unexpired lockout for `expedition_name` and against its
membership row; an empty name list returns the default (empty) result without
issuing a query. -/
def LoadMembersForCreateRequest (chars : List CharacterDataRow)
    (lockTbl : List CharLockoutRow) (memTbl : List MemberRow) (now : Nat)
    (character_names : List String) (expedition_name : String) :
    List CreateRequestRow :=
  if character_names.isEmpty then []
  else
    (chars.filter fun c => character_names.contains c.name).flatMap fun c =>
      let lks := lockTbl.filter fun r =>
        r.character_id == c.id && r.is_pending == false &&
          decide (now < r.expire_time) && r.expedition_name == expedition_name
      let mems := memTbl.filter fun m => m.character_id == c.id
      let lockoutCol : List (Option CharLockoutRow) :=
        if lks.isEmpty then [none] else lks.map some
      let memberCol : List (Option Nat) :=
        if mems.isEmpty then [none] else mems.map fun m => some m.expedition_id
      lockoutCol.flatMap fun lo => memberCol.map fun mid => ⟨c.id, c.name, mid, lo⟩

/-- Number of queries `LoadMembersForCreateRequest` issues: the statement is
only sent when the name list is non-empty. -/
def LoadMembersForCreateRequest_queryCount (character_names : List String) : Nat :=
  if character_names.isEmpty then 0 else 1

/-! ### Helper lemmas -/

theorem not_and2_eq_true {a b : Bool}
    (h : ¬(a = true ∧ b = true)) : (!(a && b)) = true := by
  cases a <;> cases b <;> simp_all

theorem not_and4_eq_true {a b c d : Bool}
    (h : ¬(a = true ∧ b = true ∧ c = true ∧ d = true)) :
    (!(a && b && c && d)) = true := by
  cases a <;> cases b <;> cases c <;> cases d <;> simp_all

theorem lockoutKey_replaceLockoutValues (lk : ExpeditionLockoutTimer)
    (r : CharLockoutRow) : lockoutKey (replaceLockoutValues lk r) = lockoutKey r := rfl

theorem mem_activeCharLockoutRows {tbl : List CharLockoutRow} {now cid : Nat}
    {r : CharLockoutRow} :
    r ∈ activeCharLockoutRows tbl now cid ↔
      r ∈ tbl ∧ r.character_id = cid ∧ r.is_pending = false ∧ now < r.expire_time := by
  simp [activeCharLockoutRows, List.mem_filter, and_assoc]

theorem mem_activeCharLockoutRowsByName {tbl : List CharLockoutRow} {now cid : Nat}
    {name : String} {r : CharLockoutRow} :
    r ∈ activeCharLockoutRowsByName tbl now cid name ↔
      r ∈ tbl ∧ r.character_id = cid ∧ r.is_pending = false ∧
        now < r.expire_time ∧ r.expedition_name = name := by
  simp [activeCharLockoutRowsByName, List.mem_filter, and_assoc]

/-! ### Claim theorems -/

/-- C8: every batch operation short-circuits on an empty input collection:
`LoadMultipleExpeditionLockouts` of an empty id list returns the empty
container without a query, `InsertCharacterLockouts` of an empty lockout list
writes nothing and issues no query, and `LoadMembersForCreateRequest` of an
empty name list returns the empty result without a query. -/
theorem c8_empty_batches_are_noops :
    (∀ tbl details, LoadMultipleExpeditionLockouts tbl details [] = []) ∧
    LoadMultipleExpeditionLockouts_queryCount [] = 0 ∧
    (∀ tbl cid rep p, InsertCharacterLockouts tbl cid [] rep p = tbl) ∧
    InsertCharacterLockouts_queryCount [] = 0 ∧
    (∀ chars lockTbl memTbl now name,
      LoadMembersForCreateRequest chars lockTbl memTbl now [] name = []) ∧
    LoadMembersForCreateRequest_queryCount [] = 0 :=
  ⟨fun _ _ => rfl, rfl, fun _ _ _ _ => rfl, rfl, fun _ _ _ _ _ => rfl, rfl⟩

/-- C6: when the `expedition_details` insert fails, `InsertExpedition`
returns the sentinel id 0 and leaves the whole database (members and lockout
tables included) unchanged; when it succeeds it returns the storage engine's
last-inserted id and still writes no membership or lockout row. -/
theorem c6_insert_expedition_sentinel :
    ∀ (db : ExpDB) (uuid : String) (iid : Nat) (name : String) (lid minp maxp : Nat),
      (InsertExpedition db false uuid iid name lid minp maxp).1 = 0 ∧
      (InsertExpedition db false uuid iid name lid minp maxp).2 = db ∧
      (InsertExpedition db true uuid iid name lid minp maxp).1 = db.next_insert_id ∧
      (InsertExpedition db true uuid iid name lid minp maxp).2.expedition_members =
        db.expedition_members ∧
      (InsertExpedition db true uuid iid name lid minp
        maxp).2.expedition_character_lockouts = db.expedition_character_lockouts ∧
      (InsertExpedition db true uuid iid name lid minp maxp).2.expedition_lockouts =
        db.expedition_lockouts := by
  intro db uuid iid name lid minp maxp
  exact ⟨rfl, rfl, rfl, rfl, rfl, rfl⟩

def c5_details : List DetailsRow := [⟨7, "uuid-7", 1, "Solteris", 10, 1, 6⟩]

def c5_chars : List CharacterDataRow := [⟨10, "Alice"⟩]

/-- C5: the `GetExpeditionLeader` query filters on `expedition_id`, a column
of neither `expedition_details` nor `character_data`, so the statement always
fails and the function returns the empty member for every input — including
an expedition whose leader resolves in the character directory, where the
spec-modelled lookup returns the leader's (id, name) pair. -/
theorem c5_get_expedition_leader_always_empty :
    getExpeditionLeaderQueryOk = false ∧
    (∀ details chars eid, GetExpeditionLeader details chars eid = ⟨0, ""⟩) ∧
    GetExpeditionLeader c5_details c5_chars 7 = ⟨0, ""⟩ ∧
    GetExpeditionLeader_spec c5_details c5_chars 7 = ⟨10, "Alice"⟩ := by
  refine ⟨by decide, fun details chars eid => ?_, by decide, by decide⟩
  have h : getExpeditionLeaderQueryOk = false := by decide
  simp [GetExpeditionLeader, h]

/-- C7: both forms of the active-lockout read include a stored row exactly
when it belongs to the character, is not pending, and its expiration instant
is strictly after the query instant — a row expiring at or before `now` is
excluded. -/
theorem c7_expiry_boundary :
    ∀ (tbl : List CharLockoutRow) (now cid : Nat) (name : String) (r : CharLockoutRow),
      (r ∈ activeCharLockoutRows tbl now cid ↔
        r ∈ tbl ∧ r.character_id = cid ∧ r.is_pending = false ∧ now < r.expire_time) ∧
      (r ∈ activeCharLockoutRowsByName tbl now cid name ↔
        r ∈ tbl ∧ r.character_id = cid ∧ r.is_pending = false ∧
          now < r.expire_time ∧ r.expedition_name = name) := by
  intro tbl now cid name r
  exact ⟨mem_activeCharLockoutRows, mem_activeCharLockoutRowsByName⟩

def c7_row : CharLockoutRow := ⟨42, 100, 3600, "u1", "Solteris", "boss1", false⟩

theorem c7_expiry_boundary_witness :
    c7_row ∉ activeCharLockoutRows [c7_row] 100 42 ∧
    c7_row ∈ activeCharLockoutRows [c7_row] 99 42 := by
  constructor
  · intro hmem
    have h := (c7_expiry_boundary [c7_row] 100 42 "Solteris" c7_row).1.mp hmem
    exact absurd h.2.2.2 (by decide)
  · exact (c7_expiry_boundary [c7_row] 99 42 "Solteris" c7_row).1.mpr
      ⟨by decide, rfl, rfl, by decide⟩

/-- C2: every row passing an active-lockout filter (both
`LoadCharacterLockouts` forms and the lockout column of
`LoadMembersForCreateRequest`) has `is_pending = false`, and a pending row is
never among the rows an active read returns. -/
theorem c2_pending_rows_excluded :
    (∀ tbl now cid r, r ∈ activeCharLockoutRows tbl now cid → r.is_pending = false) ∧
    (∀ tbl now cid name r,
      r ∈ activeCharLockoutRowsByName tbl now cid name → r.is_pending = false) ∧
    (∀ chars lockTbl memTbl now names name row lr,
      row ∈ LoadMembersForCreateRequest chars lockTbl memTbl now names name →
      row.lockout = some lr → lr.is_pending = false) ∧
    (∀ tbl now cid r, r ∈ tbl → r.is_pending = true →
      r ∉ activeCharLockoutRows tbl now cid) := by
  refine ⟨?_, ?_, ?_, ?_⟩
  · intro tbl now cid r h
    exact (mem_activeCharLockoutRows.mp h).2.2.1
  · intro tbl now cid name r h
    exact (mem_activeCharLockoutRowsByName.mp h).2.2.1
  · intro chars lockTbl memTbl now names name row lr hrow hlk
    cases hN : names.isEmpty with
    | true => simp [LoadMembersForCreateRequest, hN] at hrow
    | false =>
      simp only [LoadMembersForCreateRequest, hN, Bool.false_eq_true, if_false] at hrow
      rcases List.mem_flatMap.mp hrow with ⟨c, hc, hrow2⟩
      rcases List.mem_flatMap.mp hrow2 with ⟨lo, hlo, hrow3⟩
      rcases List.mem_map.mp hrow3 with ⟨mid, hmid, heq⟩
      rw [← heq] at hlk
      simp only at hlk
      subst hlk
      split at hlo
      · simp at hlo
      · rcases List.mem_map.mp hlo with ⟨lr2, hlr2, heq2⟩
        have hpend := (List.mem_filter.mp hlr2).2
        simp only [Bool.and_eq_true, beq_iff_eq] at hpend
        cases heq2
        exact hpend.1.1.2
  · intro tbl now cid r hmem hpend hact
    have h := (mem_activeCharLockoutRows.mp hact).2.2.1
    rw [hpend] at h
    exact Bool.true_eq_false.mp h

def c2_pending_row : CharLockoutRow := ⟨42, 200, 60, "u1", "Solteris", "boss1", true⟩

theorem c2_pending_rows_excluded_witness :
    c2_pending_row ∉ activeCharLockoutRows [c2_pending_row] 100 42 := by
  exact c2_pending_rows_excluded.2.2.2 [c2_pending_row] 100 42 c2_pending_row
    (by decide) (by decide)

/-- C10: `DeleteCharacterLockout` and `DeleteMembersLockout` filter on
`is_pending = FALSE`, so a pending row survives them untouched no matter how
the rest of the filter matches it; `DeletePendingLockouts` is the operation
that removes exactly the character's pending rows. -/
theorem c10_targeted_deletes_spare_pending :
    (∀ tbl cid name event r, r ∈ tbl → r.is_pending = true →
      r ∈ DeleteCharacterLockout tbl cid name event) ∧
    (∀ tbl members name event r, r ∈ tbl → r.is_pending = true →
      r ∈ DeleteMembersLockout tbl members name event) ∧
    (∀ tbl cid r, r ∈ DeletePendingLockouts tbl cid ↔
      r ∈ tbl ∧ ¬(r.character_id = cid ∧ r.is_pending = true)) := by
  refine ⟨?_, ?_, ?_⟩
  · intro tbl cid name event r hmem hpend
    refine List.mem_filter.mpr ⟨hmem, ?_⟩
    simp [hpend]
  · intro tbl members name event r hmem hpend
    unfold DeleteMembersLockout
    split
    · exact hmem
    · refine List.mem_filter.mpr ⟨hmem, ?_⟩
      simp [hpend]
  · intro tbl cid r
    simp only [DeletePendingLockouts, List.mem_filter, Bool.not_eq_true',
      Bool.and_eq_true, beq_iff_eq, Bool.not_eq_true]
    constructor
    · rintro ⟨hmem, hp⟩
      refine ⟨hmem, fun hand => ?_⟩
      rw [Bool.and_eq_false_iff] at hp
      cases hp with
      | inl h => exact absurd hand.1 (by simpa using h)
      | inr h => exact absurd hand.2 (by simpa using h)
    · rintro ⟨hmem, hp⟩
      refine ⟨hmem, ?_⟩
      rw [Bool.and_eq_false_iff]
      by_cases hcid : r.character_id = cid
      · exact Or.inr (by simpa using fun hpend => hp ⟨hcid, hpend⟩)
      · exact Or.inl (by simpa using hcid)

def c10_pending_row : CharLockoutRow := ⟨42, 200, 60, "u1", "Solteris", "boss1", true⟩

theorem c10_targeted_deletes_spare_pending_witness :
    c10_pending_row ∈ DeleteCharacterLockout [c10_pending_row] 42 "Solteris" "boss1" ∧
    c10_pending_row ∈
      DeleteMembersLockout [c10_pending_row] [⟨42, "A"⟩] "Solteris" "boss1" := by
  exact ⟨c10_targeted_deletes_spare_pending.1 [c10_pending_row] 42 "Solteris" "boss1"
      c10_pending_row (by decide) (by decide),
    c10_targeted_deletes_spare_pending.2.1 [c10_pending_row] [⟨42, "A"⟩] "Solteris"
      "boss1" c10_pending_row (by decide) (by decide)⟩

def c9_char0_row : CharLockoutRow := ⟨0, 100, 60, "u1", "Solteris", "boss1", false⟩

/-- C9 counterexample: `DeleteCharacterLockout` issues its DELETE without the
`character_id != 0` guard its sibling deletions have, so a call with
character id 0 does change state when a stored row carries character id 0 —
the claim's "character id 0 is a no-op" fails for this operation. -/
theorem c9_char0_delete_changes_state :
    DeleteCharacterLockout [c9_char0_row] 0 "Solteris" "boss1" ≠ [c9_char0_row] := by
  decide

/-- C9 (amended): `DeleteAllCharacterLockouts` is guarded to a no-op on
character id 0 (and its by-name form also on an empty name),
`DeleteMembersLockout` is a no-op on an empty member list, and every targeted
deletion — both `DeleteAllCharacterLockouts` forms, `DeleteCharacterLockout`
and `DeleteMembersLockout` — is a no-op whenever its filter matches no stored
row; `DeleteCharacterLockout` runs unguarded, so its character-id-0 call is a
no-op only in that zero-match case.  None of these operations signals
failure. -/
theorem c9_targeted_delete_noops :
    (∀ tbl, DeleteAllCharacterLockouts tbl 0 = tbl) ∧
    (∀ tbl name, DeleteAllCharacterLockoutsByName tbl 0 name = tbl) ∧
    (∀ tbl cid, DeleteAllCharacterLockoutsByName tbl cid "" = tbl) ∧
    (∀ tbl name event, DeleteMembersLockout tbl [] name event = tbl) ∧
    (∀ tbl cid, (∀ r ∈ tbl, r.character_id ≠ cid) →
      DeleteAllCharacterLockouts tbl cid = tbl) ∧
    (∀ tbl cid name,
      (∀ r ∈ tbl, ¬(r.character_id = cid ∧ r.expedition_name = name)) →
      DeleteAllCharacterLockoutsByName tbl cid name = tbl) ∧
    (∀ tbl cid name event,
      (∀ r ∈ tbl, ¬(r.character_id = cid ∧ r.is_pending = false ∧
        r.expedition_name = name ∧ r.event_name = event)) →
      DeleteCharacterLockout tbl cid name event = tbl) ∧
    (∀ tbl members name event,
      (∀ r ∈ tbl, ¬((∃ m ∈ members, m.char_id = r.character_id) ∧
        r.is_pending = false ∧ r.expedition_name = name ∧ r.event_name = event)) →
      DeleteMembersLockout tbl members name event = tbl) := by
  refine ⟨?_, ?_, ?_, ?_, ?_, ?_, ?_, ?_⟩
  · intro tbl
    simp [DeleteAllCharacterLockouts]
  · intro tbl name
    simp [DeleteAllCharacterLockoutsByName]
  · intro tbl cid
    simp [DeleteAllCharacterLockoutsByName]
  · intro tbl name event
    rfl
  · intro tbl cid h
    unfold DeleteAllCharacterLockouts
    split
    · refine List.filter_eq_self.mpr fun r hr => ?_
      simpa using h r hr
    · rfl
  · intro tbl cid name h
    unfold DeleteAllCharacterLockoutsByName
    split
    · refine List.filter_eq_self.mpr fun r hr => ?_
      refine not_and2_eq_true fun hand => h r hr ?_
      exact ⟨by simpa using hand.1, by simpa using hand.2⟩
    · rfl
  · intro tbl cid name event h
    refine List.filter_eq_self.mpr fun r hr => ?_
    refine not_and4_eq_true fun hand => h r hr ?_
    exact ⟨by simpa using hand.1, by simpa using hand.2.1, by simpa using hand.2.2.1,
      by simpa using hand.2.2.2⟩
  · intro tbl members name event h
    unfold DeleteMembersLockout
    split
    · rfl
    · refine List.filter_eq_self.mpr fun r hr => ?_
      refine not_and4_eq_true fun hand => h r hr ?_
      refine ⟨?_, by simpa using hand.2.1, by simpa using hand.2.2.1,
        by simpa using hand.2.2.2⟩
      rcases List.any_eq_true.mp hand.1 with ⟨m, hm, hme⟩
      exact ⟨m, hm, by simpa using hme⟩

def c9_row5 : CharLockoutRow := ⟨5, 100, 60, "u1", "Solteris", "boss1", false⟩

theorem c9_targeted_delete_noops_witness :
    DeleteAllCharacterLockouts [c9_row5] 7 = [c9_row5] ∧
    DeleteAllCharacterLockoutsByName [c9_row5] 5 "Other" = [c9_row5] ∧
    DeleteCharacterLockout [c9_row5] 5 "Other" "boss1" = [c9_row5] ∧
    DeleteMembersLockout [c9_row5] [⟨6, "B"⟩] "Solteris" "boss1" = [c9_row5] := by
  refine ⟨c9_targeted_delete_noops.2.2.2.2.1 [c9_row5] 7 ?_,
    c9_targeted_delete_noops.2.2.2.2.2.1 [c9_row5] 5 "Other" ?_,
    c9_targeted_delete_noops.2.2.2.2.2.2.1 [c9_row5] 5 "Other" "boss1" ?_,
    c9_targeted_delete_noops.2.2.2.2.2.2.2 [c9_row5] [⟨6, "B"⟩] "Solteris" "boss1" ?_⟩
  · decide
  · decide
  · decide
  · decide

/-- C4 counterexample: `InsertMembers` issues a plain multi-row INSERT with
no `ON DUPLICATE KEY UPDATE` clause, so re-adding the already-present pair
(expedition 1, character 42) makes the whole statement fail — character 43,
in the same batch, is not inserted either — instead of updating the existing
row. -/
theorem c4_bulk_insert_fails_on_existing_pair :
    InsertMembers_ok [⟨1, 42⟩] [⟨42, "A"⟩, ⟨43, "B"⟩] = false ∧
    InsertMembers [⟨1, 42⟩] 1 [⟨42, "A"⟩, ⟨43, "B"⟩] = [⟨1, 42⟩] := by
  decide

/-- C4 (amended): the single-member `InsertMember` is an idempotent upsert —
on a key conflict it reassigns `character_id` to itself, leaving the table
unchanged with no duplicate and no failure, and without conflict it appends
the new row.  The bulk `InsertMembers` is a plain INSERT: any key collision
fails the whole statement, which rolls back to a silent no-op (no duplicate
row, but no update and no other batch row inserted either); only a
collision-free non-empty batch is appended. -/
theorem c4_member_insert_semantics :
    (∀ tbl eid cid, memberConflict tbl cid = true → InsertMember tbl eid cid = tbl) ∧
    (∀ tbl eid cid, memberConflict tbl cid = false →
      InsertMember tbl eid cid = tbl ++ [⟨eid, cid⟩]) ∧
    (∀ tbl eid members, insertMembersConflict tbl members = true →
      InsertMembers tbl eid members = tbl ∧ InsertMembers_ok tbl members = false) ∧
    (∀ tbl eid members, members ≠ [] → insertMembersConflict tbl members = false →
      InsertMembers tbl eid members = tbl ++ members.map fun m => ⟨eid, m.char_id⟩) := by
  refine ⟨?_, ?_, ?_, ?_⟩
  · intro tbl eid cid h
    have hid : ∀ r : MemberRow,
        (if r.character_id == cid then { r with character_id := cid } else r) = r := by
      intro r
      split
      case isTrue hr => cases r; simp_all
      case isFalse hr => rfl
    have hmap : ∀ t : List MemberRow,
        (t.map fun r =>
          if r.character_id == cid then { r with character_id := cid } else r) = t := by
      intro t
      induction t with
      | nil => rfl
      | cons r rest ih => rw [List.map_cons, hid r, ih]
    rw [InsertMember, if_pos h, hmap tbl]
  · intro tbl eid cid h
    rw [InsertMember, h]
    simp
  · intro tbl eid members h
    have hne : members.isEmpty = false := by
      cases members with
      | nil => simp [insertMembersConflict, memberConflict, membersBatchDup] at h
      | cons m rest => rfl
    constructor
    · simp [InsertMembers, hne, h]
    · rw [InsertMembers_ok, h]
      rfl
  · intro tbl eid members hne h
    rw [InsertMembers, if_neg (by simpa using hne), h]
    simp

theorem c4_member_insert_semantics_witness :
    InsertMember [⟨1, 42⟩] 1 42 = [⟨1, 42⟩] ∧
    InsertMember [⟨1, 42⟩] 1 43 = [⟨1, 42⟩, ⟨1, 43⟩] ∧
    InsertMembers [⟨1, 42⟩] 2 [⟨42, "A"⟩] = [⟨1, 42⟩] ∧
    InsertMembers_ok [⟨1, 42⟩] [⟨42, "A"⟩] = false ∧
    InsertMembers [⟨1, 42⟩] 1 [⟨43, "B"⟩] = [⟨1, 42⟩, ⟨1, 43⟩] := by
  refine ⟨c4_member_insert_semantics.1 [⟨1, 42⟩] 1 42 (by decide),
    c4_member_insert_semantics.2.1 [⟨1, 42⟩] 1 43 (by decide),
    (c4_member_insert_semantics.2.2.1 [⟨1, 42⟩] 2 [⟨42, "A"⟩] (by decide)).1,
    (c4_member_insert_semantics.2.2.1 [⟨1, 42⟩] 2 [⟨42, "A"⟩] (by decide)).2, ?_⟩
  rw [c4_member_insert_semantics.2.2.2 [⟨1, 42⟩] 1 [⟨43, "B"⟩] (by decide) (by decide)]
  decide

theorem uniqueLockoutKeys_map (f : CharLockoutRow → CharLockoutRow)
    (hf : ∀ r, lockoutKey (f r) = lockoutKey r) :
    ∀ tbl, uniqueLockoutKeys tbl = true → uniqueLockoutKeys (tbl.map f) = true := by
  intro tbl
  induction tbl with
  | nil => intro _; rfl
  | cons r rest ih =>
    intro h
    rw [uniqueLockoutKeys, Bool.and_eq_true] at h
    rw [List.map_cons, uniqueLockoutKeys, Bool.and_eq_true]
    refine ⟨?_, ih h.2⟩
    rw [List.any_map]
    have hfun : ((fun s => decide (lockoutKey s = lockoutKey (f r))) ∘ f) =
        fun s => decide (lockoutKey s = lockoutKey r) := by
      funext s
      simp [Function.comp, hf]
    rw [hfun]
    exact h.1

theorem uniqueLockoutKeys_append (tbl : List CharLockoutRow) (row : CharLockoutRow)
    (h : uniqueLockoutKeys tbl = true)
    (hfresh : (tbl.any fun s => decide (lockoutKey s = lockoutKey row)) = false) :
    uniqueLockoutKeys (tbl ++ [row]) = true := by
  induction tbl with
  | nil => simp [uniqueLockoutKeys]
  | cons r rest ih =>
    rw [uniqueLockoutKeys, Bool.and_eq_true] at h
    rw [List.any_cons, Bool.or_eq_false_iff] at hfresh
    rw [List.cons_append, uniqueLockoutKeys, Bool.and_eq_true]
    have h1 : (rest.any fun s => decide (lockoutKey s = lockoutKey r)) = false := by
      simpa using h.1
    refine ⟨?_, ih h.2 hfresh.2⟩
    rw [Bool.not_eq_true', List.any_append, Bool.or_eq_false_iff]
    refine ⟨h1, ?_⟩
    rw [List.any_cons, List.any_nil, Bool.or_false]
    rw [show (decide (lockoutKey row = lockoutKey r)) =
        decide (lockoutKey r = lockoutKey row) from decide_eq_decide.mpr eq_comm]
    exact hfresh.1

theorem upsertCharLockout_preserves_unique (cid : Nat) (rep p : Bool)
    (tbl : List CharLockoutRow) (lk : ExpeditionLockoutTimer)
    (h : uniqueLockoutKeys tbl = true) :
    uniqueLockoutKeys (upsertCharLockout cid rep p tbl lk) = true := by
  cases hcb : charLockoutConflict tbl cid lk with
  | true =>
    cases rep with
    | true =>
      simp only [upsertCharLockout, hcb, if_true]
      refine uniqueLockoutKeys_map _ ?_ tbl h
      intro r
      split
      · rfl
      · rfl
    | false =>
      simp only [upsertCharLockout, hcb, if_true, Bool.false_eq_true, if_false]
      exact h
  | false =>
    simp only [upsertCharLockout, hcb, Bool.false_eq_true, if_false]
    exact uniqueLockoutKeys_append tbl _ h hcb

theorem foldl_upsertCharLockout_preserves_unique (cid : Nat) (rep p : Bool) :
    ∀ (lockouts : List ExpeditionLockoutTimer) (tbl : List CharLockoutRow),
      uniqueLockoutKeys tbl = true →
      uniqueLockoutKeys (lockouts.foldl (upsertCharLockout cid rep p) tbl) = true := by
  intro lockouts
  induction lockouts with
  | nil => intro tbl h; exact h
  | cons lk rest ih =>
    intro tbl h
    rw [List.foldl_cons]
    exact ih _ (upsertCharLockout_preserves_unique cid rep p tbl lk h)

theorem map_congr_mem {α β : Type} (f g : α → β) :
    ∀ l : List α, (∀ a ∈ l, f a = g a) → l.map f = l.map g := by
  intro l
  induction l with
  | nil => intro _; rfl
  | cons a rest ih =>
    intro h
    rw [List.map_cons, List.map_cons, h a (List.mem_cons_self a rest),
      ih fun b hb => h b (List.mem_cons_of_mem a hb)]

theorem replaceLockoutValues_comp (lk lk2 : ExpeditionLockoutTimer)
    (r : CharLockoutRow) :
    replaceLockoutValues lk (replaceLockoutValues lk2 r) = replaceLockoutValues lk r := rfl

theorem lockoutKey_replaceRowByBatch (cid : Nat) (pre : List ExpeditionLockoutTimer)
    (r : CharLockoutRow) :
    lockoutKey (replaceRowByBatch cid pre r) = lockoutKey r := by
  rw [replaceRowByBatch]
  cases lastBatchMatch cid pre (lockoutKey r) with
  | none => rfl
  | some lk => rfl

theorem replaceRowByBatch_nil (cid : Nat) (r : CharLockoutRow) :
    replaceRowByBatch cid [] r = r := rfl

theorem map_replaceRowByBatch_nil (cid : Nat) (tbl : List CharLockoutRow) :
    tbl.map (replaceRowByBatch cid []) = tbl := by
  rw [map_congr_mem _ id tbl fun a _ => replaceRowByBatch_nil cid a, List.map_id]

theorem lastBatchMatch_snoc (cid : Nat) (pre : List ExpeditionLockoutTimer)
    (lk : ExpeditionLockoutTimer) (k : Nat × String × String) :
    lastBatchMatch cid (pre ++ [lk]) k =
      if (cid, lk.expedition_name, lk.event_name) = k then some lk
      else lastBatchMatch cid pre k := by
  simp only [lastBatchMatch, List.foldl_append, List.foldl_cons, List.foldl_nil]

theorem replaceRowByBatch_snoc (cid : Nat) (pre : List ExpeditionLockoutTimer)
    (lk : ExpeditionLockoutTimer) (r : CharLockoutRow) :
    replaceRowByBatch cid (pre ++ [lk]) r =
      if lockoutKey r = (cid, lk.expedition_name, lk.event_name) then
        replaceLockoutValues lk r
      else replaceRowByBatch cid pre r := by
  rw [replaceRowByBatch, lastBatchMatch_snoc]
  by_cases hk : (cid, lk.expedition_name, lk.event_name) = lockoutKey r
  · rw [if_pos hk, if_pos hk.symm]
  · rw [if_neg hk, if_neg fun he => hk he.symm, replaceRowByBatch]

theorem replaceLockoutValues_replaceRowByBatch (cid : Nat)
    (pre : List ExpeditionLockoutTimer) (lk : ExpeditionLockoutTimer)
    (r : CharLockoutRow) :
    replaceLockoutValues lk (replaceRowByBatch cid pre r) = replaceLockoutValues lk r := by
  rw [replaceRowByBatch]
  cases lastBatchMatch cid pre (lockoutKey r) with
  | none => rfl
  | some lk2 => rfl

theorem foldl_upsert_replace_shape (cid : Nat) (p : Bool) (tbl : List CharLockoutRow) :
    ∀ (batch pre : List ExpeditionLockoutTimer) (news : List CharLockoutRow),
      ∃ news2,
        batch.foldl (upsertCharLockout cid true p)
            (tbl.map (replaceRowByBatch cid pre) ++ news) =
          tbl.map (replaceRowByBatch cid (pre ++ batch)) ++ news2 := by
  intro batch
  induction batch with
  | nil =>
    intro pre news
    exact ⟨news, by rw [List.foldl_nil, List.append_nil]⟩
  | cons lk rest ih =>
    intro pre news
    rw [List.foldl_cons]
    cases hcb : charLockoutConflict (tbl.map (replaceRowByBatch cid pre) ++ news) cid lk with
    | true =>
      have hstep : upsertCharLockout cid true p
          (tbl.map (replaceRowByBatch cid pre) ++ news) lk =
          tbl.map (replaceRowByBatch cid (pre ++ [lk])) ++
            news.map fun s =>
              if lockoutKey s = (cid, lk.expedition_name, lk.event_name) then
                replaceLockoutValues lk s
              else s := by
        rw [upsertCharLockout, if_pos hcb, if_pos rfl, List.map_append, List.map_map]
        congr 1
        refine map_congr_mem _ _ tbl fun r _ => ?_
        simp only [Function.comp]
        rw [lockoutKey_replaceRowByBatch, replaceRowByBatch_snoc]
        by_cases hk : lockoutKey r = (cid, lk.expedition_name, lk.event_name)
        · rw [if_pos hk, if_pos hk, replaceLockoutValues_replaceRowByBatch]
        · rw [if_neg hk, if_neg hk]
      rw [hstep]
      obtain ⟨news2, h2⟩ := ih (pre ++ [lk])
        (news.map fun s =>
          if lockoutKey s = (cid, lk.expedition_name, lk.event_name) then
            replaceLockoutValues lk s
          else s)
      rw [List.append_assoc, List.singleton_append] at h2
      exact ⟨news2, h2⟩
    | false =>
      have hfresh : ∀ s ∈ tbl.map (replaceRowByBatch cid pre) ++ news,
          ¬(lockoutKey s = (cid, lk.expedition_name, lk.event_name)) := by
        intro s hs hk
        have h1 : charLockoutConflict (tbl.map (replaceRowByBatch cid pre) ++ news)
            cid lk = true := by
          rw [charLockoutConflict, List.any_eq_true]
          exact ⟨s, hs, by simpa using hk⟩
        rw [hcb] at h1
        exact Bool.false_ne_true h1
      have hstep : upsertCharLockout cid true p
          (tbl.map (replaceRowByBatch cid pre) ++ news) lk =
          tbl.map (replaceRowByBatch cid (pre ++ [lk])) ++
            (news ++ [⟨cid, lk.expire_time, lk.duration, lk.expedition_uuid,
              lk.expedition_name, lk.event_name, p⟩]) := by
        rw [upsertCharLockout, if_neg (by rw [hcb]; exact Bool.false_ne_true),
          List.append_assoc]
        congr 1
        refine (map_congr_mem _ _ tbl fun r hr => ?_).symm
        rw [replaceRowByBatch_snoc, if_neg]
        intro hk
        refine hfresh (replaceRowByBatch cid pre r) ?_ ?_
        · exact List.mem_append_left _ (List.mem_map_of_mem _ hr)
        · rw [lockoutKey_replaceRowByBatch]
          exact hk
      rw [hstep]
      obtain ⟨news2, h2⟩ := ih (pre ++ [lk])
        (news ++ [⟨cid, lk.expire_time, lk.duration, lk.expedition_uuid,
          lk.expedition_name, lk.event_name, p⟩])
      rw [List.append_assoc, List.singleton_append] at h2
      exact ⟨news2, h2⟩

theorem foldl_upsert_preserve_shape (cid : Nat) (p : Bool) :
    ∀ (batch : List ExpeditionLockoutTimer) (tbl news : List CharLockoutRow),
      ∃ news2,
        batch.foldl (upsertCharLockout cid false p) (tbl ++ news) = tbl ++ news2 := by
  intro batch
  induction batch with
  | nil => intro tbl news; exact ⟨news, rfl⟩
  | cons lk rest ih =>
    intro tbl news
    rw [List.foldl_cons]
    cases hcb : charLockoutConflict (tbl ++ news) cid lk with
    | true =>
      have hstep : upsertCharLockout cid false p (tbl ++ news) lk = tbl ++ news := by
        rw [upsertCharLockout, if_pos hcb]
        rfl
      rw [hstep]
      exact ih tbl news
    | false =>
      have hstep : upsertCharLockout cid false p (tbl ++ news) lk =
          tbl ++ (news ++ [⟨cid, lk.expire_time, lk.duration, lk.expedition_uuid,
            lk.expedition_name, lk.event_name, p⟩]) := by
        rw [upsertCharLockout, if_neg (by rw [hcb]; exact Bool.false_ne_true),
          List.append_assoc]
      rw [hstep]
      exact ih tbl _

/-- C1: for every batch, the character-lockout upsert preserves the
per-character table's (character, expedition name, event name) key
uniqueness — no duplicate row for a triple is ever created.  For an
arbitrary batch with `replace_timer = true`, every pre-existing row,
kept in place, ends up with its uuid/expire/duration overwritten by the last
batch lockout sharing its triple (and untouched when no batch lockout
conflicts with it); with `replace_timer = false` the original table is an
unchanged prefix of the result, so every existing row keeps its
uuid/expiration/duration.  The last three parts state the singleton-batch
conflict case explicitly: replace rewrites exactly the conflicting row,
no-replace leaves the table unchanged, and the row count never grows on a
conflict. -/
theorem c1_upsert_merge_semantics :
    (∀ tbl cid lockouts rep p, uniqueLockoutKeys tbl = true →
      uniqueLockoutKeys (InsertCharacterLockouts tbl cid lockouts rep p) = true) ∧
    (∀ tbl cid lockouts p, ∃ news,
      InsertCharacterLockouts tbl cid lockouts true p =
        tbl.map (replaceRowByBatch cid lockouts) ++ news) ∧
    (∀ tbl cid lockouts p, ∃ news,
      InsertCharacterLockouts tbl cid lockouts false p = tbl ++ news) ∧
    (∀ tbl cid lk p, charLockoutConflict tbl cid lk = true →
      InsertCharacterLockouts tbl cid [lk] true p =
        tbl.map fun r =>
          if lockoutKey r = (cid, lk.expedition_name, lk.event_name) then
            replaceLockoutValues lk r
          else r) ∧
    (∀ tbl cid lk p, charLockoutConflict tbl cid lk = true →
      InsertCharacterLockouts tbl cid [lk] false p = tbl) ∧
    (∀ tbl cid lk rep p, charLockoutConflict tbl cid lk = true →
      (InsertCharacterLockouts tbl cid [lk] rep p).length = tbl.length) := by
  have hone : ∀ tbl cid lk rep p,
      InsertCharacterLockouts tbl cid [lk] rep p = upsertCharLockout cid rep p tbl lk := by
    intro tbl cid lk rep p
    rfl
  refine ⟨?_, ?_, ?_, ?_, ?_, ?_⟩
  · intro tbl cid lockouts rep p h
    rw [InsertCharacterLockouts]
    split
    · exact h
    · exact foldl_upsertCharLockout_preserves_unique cid rep p lockouts tbl h
  · intro tbl cid lockouts p
    rw [InsertCharacterLockouts]
    split
    case isTrue h =>
      have hnil : lockouts = [] := by
        cases lockouts with
        | nil => rfl
        | cons a l => simp at h
      subst hnil
      exact ⟨[], by rw [List.append_nil, map_replaceRowByBatch_nil]⟩
    case isFalse h =>
      obtain ⟨news2, h2⟩ := foldl_upsert_replace_shape cid p tbl lockouts [] []
      rw [map_replaceRowByBatch_nil, List.append_nil, List.nil_append] at h2
      exact ⟨news2, h2⟩
  · intro tbl cid lockouts p
    rw [InsertCharacterLockouts]
    split
    case isTrue h => exact ⟨[], by rw [List.append_nil]⟩
    case isFalse h =>
      obtain ⟨news2, h2⟩ := foldl_upsert_preserve_shape cid p lockouts tbl []
      rw [List.append_nil] at h2
      exact ⟨news2, h2⟩
  · intro tbl cid lk p h
    rw [hone, upsertCharLockout, if_pos h, if_pos rfl]
  · intro tbl cid lk p h
    rw [hone, upsertCharLockout, if_pos h]
    rfl
  · intro tbl cid lk rep p h
    cases rep with
    | true =>
      rw [hone, upsertCharLockout, if_pos h, if_pos rfl, List.length_map]
    | false =>
      rw [hone, upsertCharLockout, if_pos h, if_neg (by simp)]

def c1_row : CharLockoutRow := ⟨42, 100, 3600, "u1", "Solteris", "boss1", false⟩

def c1_lk : ExpeditionLockoutTimer := ⟨"u2", "Solteris", "boss1", 7200, 1800⟩

def c1_lk2 : ExpeditionLockoutTimer := ⟨"u3", "Solteris", "boss2", 9000, 1800⟩

theorem c1_upsert_merge_semantics_witness :
    uniqueLockoutKeys
      (InsertCharacterLockouts [c1_row] 42 [c1_lk, c1_lk2] true false) = true ∧
    InsertCharacterLockouts [c1_row] 42 [c1_lk] true false =
      [⟨42, 7200, 1800, "u2", "Solteris", "boss1", false⟩] ∧
    InsertCharacterLockouts [c1_row] 42 [c1_lk] false true = [c1_row] ∧
    (InsertCharacterLockouts [c1_row] 42 [c1_lk] true true).length = 1 := by
  refine ⟨c1_upsert_merge_semantics.1 [c1_row] 42 [c1_lk, c1_lk2] true false (by decide),
    ?_,
    c1_upsert_merge_semantics.2.2.2.2.1 [c1_row] 42 c1_lk true (by decide),
    c1_upsert_merge_semantics.2.2.2.2.2 [c1_row] 42 c1_lk true true (by decide)⟩
  rw [c1_upsert_merge_semantics.2.2.2.1 [c1_row] 42 c1_lk false (by decide)]
  decide

/-- C3: `AssignPendingLockouts` is a pure UPDATE — it keeps the row count,
preserves key uniqueness (so promotion cannot duplicate an existing
non-pending row's triple), and a pending unexpired row of the character and
expedition name reappears, with `is_pending` cleared, in the active-lockout
read after promotion. -/
theorem c3_promotion_updates_in_place :
    (∀ tbl cid name, (AssignPendingLockouts tbl cid name).length = tbl.length) ∧
    (∀ tbl cid name, uniqueLockoutKeys tbl = true →
      uniqueLockoutKeys (AssignPendingLockouts tbl cid name) = true) ∧
    (∀ tbl now cid name r, r ∈ tbl → r.character_id = cid →
      r.expedition_name = name → r.is_pending = true → now < r.expire_time →
      { r with is_pending := false } ∈
        activeCharLockoutRows (AssignPendingLockouts tbl cid name) now cid) := by
  refine ⟨?_, ?_, ?_⟩
  · intro tbl cid name
    rw [AssignPendingLockouts, List.length_map]
  · intro tbl cid name h
    refine uniqueLockoutKeys_map _ ?_ tbl h
    intro r
    split
    · rfl
    · rfl
  · intro tbl now cid name r hmem hcid hname hpend hexp
    refine mem_activeCharLockoutRows.mpr ⟨?_, hcid, rfl, hexp⟩
    rw [AssignPendingLockouts]
    refine List.mem_map.mpr ⟨r, hmem, ?_⟩
    rw [if_pos]
    simp [hcid, hname, hpend]

def c3_pending_row : CharLockoutRow := ⟨42, 200, 60, "u1", "Solteris", "boss1", true⟩

theorem c3_promotion_updates_in_place_witness :
    { c3_pending_row with is_pending := false } ∈
      activeCharLockoutRows (AssignPendingLockouts [c3_pending_row] 42 "Solteris")
        100 42 := by
  exact c3_promotion_updates_in_place.2.2 [c3_pending_row] 100 42 "Solteris"
    c3_pending_row (by decide) rfl rfl rfl (by decide)

end ExpeditionDatabase
